import Mathlib

/-!
Verification of the admission gate in
`src/crates/icp-cli/tests/assets/limit_transfer.py` (mitmproxy addon
`LimitTransfer`): a gate that lets a limited number of request/response
pairs through, serializing requests (the docstring: "Requests are
serialized - only one in flight at a time. After the limit is reached,
subsequent requests are killed.").

The Python code is embedded shallowly:

* `Gate` mirrors the addon's instance fields `requests_allowed`,
  `requests_completed`, `in_flight`, `waiters` (waiters are
  `asyncio.Event` handles; we identify each handle with the numeric id of
  the request that enqueued it, which is faithful because each handle is
  created by exactly one suspended `request` call).
* `requestArrive` is the body of `async def request` from its start up to
  the first return, the `in_flight = True` admit line, or the suspension
  `await event.wait()` (whichever is reached first).
* `requestResume` is the continuation of `async def request` after
  `await event.wait()` returns.
* `responseGate` is the body of `def response` (it returns the gate and
  the handle popped and signaled, if any).
* Logging (`ctx.log.info`) has no state effect and is dropped.

Scheduling: `request` is an async coroutine whose only yield point is
`await event.wait()`; `response` is synchronous. Crucially,
`asyncio.Event.set()` does NOT transfer control to the waiting task: it
only marks the waiter runnable, and the waiter's continuation runs at a
later event-loop iteration, possibly after other `request`/`response`
hooks of other flows have run. The step relation `step` therefore has
three separately schedulable atomic events: `arrive` (the pre-suspension
part of `request`), `resume` (the post-suspension part, enabled once the
waiter's event has been set), and `complete` (`response`, enabled for an
admitted request, per the collaborator contract that `response` fires
exactly once per admitted request).
-/

/-- The mutable state of the `LimitTransfer` addon instance.
`requests_allowed` is set in `__init__` from
`int(os.environ.get("LIMIT_REQUESTS", 2))`; note that `int(...)` parses
negative integers without complaint, so `requests_allowed` ranges over
all of `Int`. -/
structure Gate where
  requests_allowed : Int
  requests_completed : Int
  in_flight : Bool
  waiters : List Nat
  deriving Repr, DecidableEq

/-- `LimitTransfer.__init__` with the parsed value of `LIMIT_REQUESTS`:
`requests_completed = 0`, `in_flight = False`, `waiters = []`. There is
no validation of `limit` in the source. -/
def mkGate (limit : Int) : Gate :=
  { requests_allowed := limit
    requests_completed := 0
    in_flight := false
    waiters := [] }

/-- Outcome of the pre-suspension part of `async def request`. -/
inductive ArriveResult where
  | killed
  | admitted
  | suspended
  deriving Repr, DecidableEq

/-- Outcome of the post-suspension part of `async def request`. -/
inductive ResumeResult where
  | killed
  | admitted
  deriving Repr, DecidableEq

/-- Body of `async def request(self, flow)` up to its first suspension or
return, translated line by line:

    if self.requests_completed >= self.requests_allowed:
        flow.kill(); return
    if self.in_flight:
        if self.requests_completed + len(self.waiters) + 1 >= self.requests_allowed:
            flow.kill(); return
        event = asyncio.Event()
        self.waiters.append(event)
        await event.wait()          -- suspension point
        ...
    self.in_flight = True           -- admit

`rid` stands for the `asyncio.Event` handle appended for this request. -/
def requestArrive (g : Gate) (rid : Nat) : Gate × ArriveResult :=
  if g.requests_completed ≥ g.requests_allowed then
    (g, .killed)
  else if g.in_flight then
    if g.requests_completed + (g.waiters.length : Int) + 1 ≥ g.requests_allowed then
      (g, .killed)
    else
      ({ g with waiters := g.waiters ++ [rid] }, .suspended)
  else
    ({ g with in_flight := true }, .admitted)

/-- Continuation of `async def request` after `await event.wait()`:

    if self.requests_completed >= self.requests_allowed:
        flow.kill(); return
    self.in_flight = True           -- admit
-/
def requestResume (g : Gate) : Gate × ResumeResult :=
  if g.requests_completed ≥ g.requests_allowed then
    (g, .killed)
  else
    ({ g with in_flight := true }, .admitted)

/-- Body of `def response(self, flow)`:

    self.requests_completed += 1
    self.in_flight = False
    if self.waiters and self.requests_completed < self.requests_allowed:
        waiter = self.waiters.pop(0)
        waiter.set()

The second component is the handle popped and signaled, when any. -/
def responseGate (g : Gate) : Gate × Option Nat :=
  let g1 : Gate :=
    { g with requests_completed := g.requests_completed + 1, in_flight := false }
  match g1.waiters with
  | [] => (g1, none)
  | w :: rest =>
    if g1.requests_completed < g1.requests_allowed then
      ({ g1 with waiters := rest }, some w)
    else
      (g1, none)

/-- Lifecycle phase of one request id inside the model. `waitingQ` means
the request's event handle sits in `waiters` and has not been set;
`signaled` means `response` has popped the handle and called `set()`, but
the suspended coroutine has not yet been rescheduled. -/
inductive Phase where
  | admitted
  | waitingQ
  | signaled
  | killed
  | completedP
  deriving Repr, DecidableEq, BEq

/-- A configuration of the whole addon: the gate state plus bookkeeping
about every request id seen so far. `enqLog` records, in order, the ids
whose handles were appended to `waiters`; `sigLog` records, in order, the
ids whose handles `response` popped and set; `admitCount` counts every
time the `self.in_flight = True` admit line was reached. -/
structure Config where
  gate : Gate
  phase : List (Nat × Phase)
  enqLog : List Nat
  sigLog : List Nat
  admitCount : Nat
  deriving Repr, DecidableEq

/-- Fresh configuration around `mkGate limit`. -/
def initConfig (limit : Int) : Config :=
  { gate := mkGate limit
    phase := []
    enqLog := []
    sigLog := []
    admitCount := 0 }

/-- Update the phase recorded for `rid`. -/
def setPhase (m : List (Nat × Phase)) (rid : Nat) (p : Phase) :
    List (Nat × Phase) :=
  m.map fun e => if e.1 = rid then (rid, p) else e

/-- Schedulable atomic events. `arrive rid` runs the pre-suspension part
of `request` for a fresh flow; `resume rid` runs the post-suspension part
once `rid`'s event has been set; `complete rid` runs `response` for an
admitted flow (mitmproxy fires `response` exactly once per request that
was allowed through). -/
inductive Ev where
  | arrive (rid : Nat)
  | resume (rid : Nat)
  | complete (rid : Nat)
  deriving Repr, DecidableEq

/-- One atomic scheduler step. `none` means the event is not enabled in
this configuration (stale id, resumption before the event was set, or a
`response` for a flow that was not admitted). -/
def step (c : Config) : Ev → Option Config
  | .arrive rid =>
    if (c.phase.lookup rid).isSome then none
    else
      match requestArrive c.gate rid with
      | (g, .killed) =>
        some { c with gate := g, phase := (rid, .killed) :: c.phase }
      | (g, .admitted) =>
        some { c with gate := g, phase := (rid, .admitted) :: c.phase,
                      admitCount := c.admitCount + 1 }
      | (g, .suspended) =>
        some { c with gate := g, phase := (rid, .waitingQ) :: c.phase,
                      enqLog := c.enqLog ++ [rid] }
  | .resume rid =>
    if c.phase.lookup rid = some .signaled then
      match requestResume c.gate with
      | (g, .killed) =>
        some { c with gate := g, phase := setPhase c.phase rid .killed }
      | (g, .admitted) =>
        some { c with gate := g, phase := setPhase c.phase rid .admitted,
                      admitCount := c.admitCount + 1 }
    else none
  | .complete rid =>
    if c.phase.lookup rid = some .admitted then
      match responseGate c.gate with
      | (g, none) =>
        some { c with gate := g, phase := setPhase c.phase rid .completedP }
      | (g, some w) =>
        some { c with gate := g,
                      phase := setPhase (setPhase c.phase rid .completedP) w .signaled,
                      sigLog := c.sigLog ++ [w] }
    else none

/-- Run a sequence of events; the whole run is rejected if any event is
not enabled where it occurs. -/
def run (c : Config) : List Ev → Option Config
  | [] => some c
  | e :: es => (step c e).bind fun c1 => run c1 es

/-- Number of requests currently admitted and not yet completed. -/
def inFlightCount (c : Config) : Nat :=
  (c.phase.filter fun e => e.2 == Phase.admitted).length

/-- A legal asyncio interleaving with `LIMIT_REQUESTS = 3`: request 1 is
admitted; request 2 queues; request 1's response signals request 2's
event; request 3's handler runs before request 2's task is rescheduled
(`Event.set()` only marks the waiter runnable) and, finding
`in_flight == False`, is admitted; then request 2 resumes, passes its
recheck (`requests_completed = 1 < 3`) and is admitted as well. -/
def raceTrace2 : List Ev :=
  [.arrive 1, .arrive 2, .complete 1, .arrive 3, .resume 2]

/-- Extension of `raceTrace2` that repeats the same signal/resume race
once more: request 4 queues behind the two in-flight requests, request
2's response signals it, request 5 slips in and is admitted, then request
4 resumes and is admitted — five admissions under a limit of 3. -/
def raceTrace5 : List Ev :=
  raceTrace2 ++ [.arrive 4, .complete 2, .arrive 5, .resume 4]

/-- `raceTrace5` followed by the responses of requests 3 and 4, driving
`requests_completed` to 4 with `requests_allowed = 3`. -/
def raceTrace6 : List Ev :=
  raceTrace5 ++ [.complete 3, .complete 4]

/-- A short trace used to exhibit the FIFO signal order: request 1 is
admitted, request 2 queues, request 1's response pops and signals the
head of `waiters` (request 2). -/
def fifoTrace : List Ev := [.arrive 1, .arrive 2, .complete 1]

/-- The configuration `run (initConfig 3) fifoTrace` reaches. -/
def fifoConfig : Config :=
  { gate := { requests_allowed := 3, requests_completed := 1,
              in_flight := false, waiters := [] }
    phase := [(2, .signaled), (1, .completedP)]
    enqLog := [2]
    sigLog := [2]
    admitCount := 1 }

/-- The configuration reached from `initConfig 0` by one arrival: with
`requests_completed = 0 ≥ 0 = requests_allowed` the arrival is killed
immediately and only the phase book-keeping records it. -/
def frozenConfig : Config :=
  { gate := mkGate 0
    phase := [(1, .killed)]
    enqLog := []
    sigLog := []
    admitCount := 0 }

/-! ### Characterizations of the three handler fragments -/

theorem requestArrive_over {g : Gate} (rid : Nat)
    (h : g.requests_allowed ≤ g.requests_completed) :
    requestArrive g rid = (g, .killed) := by
  simp [requestArrive, h]

theorem requestArrive_proj {g : Gate} (rid : Nat)
    (h1 : g.requests_completed < g.requests_allowed) (h2 : g.in_flight = true)
    (h3 : g.requests_allowed ≤ g.requests_completed + (g.waiters.length : Int) + 1) :
    requestArrive g rid = (g, .killed) := by
  simp [requestArrive, not_le.mpr h1, h2, h3]

theorem requestArrive_enq {g : Gate} (rid : Nat)
    (h1 : g.requests_completed < g.requests_allowed) (h2 : g.in_flight = true)
    (h3 : g.requests_completed + (g.waiters.length : Int) + 1 < g.requests_allowed) :
    requestArrive g rid = ({ g with waiters := g.waiters ++ [rid] }, .suspended) := by
  simp [requestArrive, not_le.mpr h1, h2, not_le.mpr h3]

theorem requestArrive_free {g : Gate} (rid : Nat)
    (h1 : g.requests_completed < g.requests_allowed) (h2 : g.in_flight = false) :
    requestArrive g rid = ({ g with in_flight := true }, .admitted) := by
  simp [requestArrive, not_le.mpr h1, h2]

theorem requestResume_over {g : Gate}
    (h : g.requests_allowed ≤ g.requests_completed) :
    requestResume g = (g, .killed) := by
  simp [requestResume, h]

theorem requestResume_under {g : Gate}
    (h : g.requests_completed < g.requests_allowed) :
    requestResume g = ({ g with in_flight := true }, .admitted) := by
  simp [requestResume, not_le.mpr h]

theorem responseGate_fst (g : Gate) :
    (responseGate g).1.requests_completed = g.requests_completed + 1 ∧
      (responseGate g).1.in_flight = false := by
  unfold responseGate
  cases g.waiters with
  | nil => exact ⟨rfl, rfl⟩
  | cons w rest => dsimp only; split <;> exact ⟨rfl, rfl⟩

theorem responseGate_snd (g : Gate) :
    (responseGate g).2 =
      (if g.waiters ≠ [] ∧ g.requests_completed + 1 < g.requests_allowed then
        g.waiters.head? else none) := by
  unfold responseGate
  cases g.waiters with
  | nil => simp
  | cons w rest =>
    dsimp only
    by_cases h : g.requests_completed + 1 < g.requests_allowed <;> simp [h]

theorem responseGate_waiters (g : Gate) :
    (responseGate g).1.waiters =
      (if g.waiters ≠ [] ∧ g.requests_completed + 1 < g.requests_allowed then
        g.waiters.tail else g.waiters) := by
  unfold responseGate
  cases g.waiters with
  | nil => simp
  | cons w rest =>
    dsimp only
    by_cases h : g.requests_completed + 1 < g.requests_allowed <;> simp [h]

/-! ### Claim theorems: per-call behaviour -/

/-- C4: an arrival that finds `requests_completed < requests_allowed` and
`in_flight == True` is killed immediately with `waiters` (and the rest of
the state) untouched when
`projected = requests_completed + len(waiters) + 1 ≥ requests_allowed`,
and otherwise its handle is appended at the tail of `waiters` and the
request suspends. -/
theorem arrive_projected_kill_or_enqueue (g : Gate) (rid : Nat)
    (h1 : g.requests_completed < g.requests_allowed)
    (h2 : g.in_flight = true) :
    (g.requests_allowed ≤ g.requests_completed + (g.waiters.length : Int) + 1 →
      requestArrive g rid = (g, .killed)) ∧
    (g.requests_completed + (g.waiters.length : Int) + 1 < g.requests_allowed →
      requestArrive g rid = ({ g with waiters := g.waiters ++ [rid] }, .suspended)) :=
  ⟨fun h3 => requestArrive_proj rid h1 h2 h3,
   fun h3 => requestArrive_enq rid h1 h2 h3⟩

/-- Witness for C4, at the spec's own scenario: `limit = 2`, first
request in flight (`requests_completed = 0`, `in_flight = True`), second
request queued (`waiters = [7]`); the third arrival computes
`projected = 0 + 1 + 1 = 2 ≥ 2` and is killed immediately, not queued. -/
theorem arrive_projected_kill_or_enqueue_witness :
    requestArrive
        { requests_allowed := 2, requests_completed := 0,
          in_flight := true, waiters := [7] } 9 =
      ({ requests_allowed := 2, requests_completed := 0,
         in_flight := true, waiters := [7] }, .killed) :=
  (arrive_projected_kill_or_enqueue _ 9 (by decide) rfl).1 (by decide)

/-- C5: a resumed waiter rechecks the limit: if
`requests_completed ≥ requests_allowed` at resumption it is killed with
the state untouched, otherwise it sets `in_flight = True` and is
admitted. -/
theorem resume_recheck_verdicts (g : Gate) :
    (g.requests_allowed ≤ g.requests_completed →
      requestResume g = (g, .killed)) ∧
    (g.requests_completed < g.requests_allowed →
      requestResume g = ({ g with in_flight := true }, .admitted)) :=
  ⟨requestResume_over, requestResume_under⟩

/-- Witness for C5: with `limit = 2` and `requests_completed = 2` the
resumed waiter is killed; with `limit = 3` and `requests_completed = 1`
it is admitted and `in_flight` becomes `True`. -/
theorem resume_recheck_verdicts_witness :
    requestResume
        { requests_allowed := 2, requests_completed := 2,
          in_flight := false, waiters := [] } =
      ({ requests_allowed := 2, requests_completed := 2,
         in_flight := false, waiters := [] }, .killed) ∧
    requestResume
        { requests_allowed := 3, requests_completed := 1,
          in_flight := false, waiters := [4] } =
      ({ requests_allowed := 3, requests_completed := 1,
         in_flight := true, waiters := [4] }, .admitted) :=
  ⟨(resume_recheck_verdicts _).1 (by decide),
   (resume_recheck_verdicts _).2 (by decide)⟩

/-- C10: both kill paths of `request` that never enqueue — the immediate
kill when `requests_completed ≥ requests_allowed` and the
projected-over-limit kill — return with the whole gate state (`limit`,
`completed`, `in_flight`, `waiters`) exactly as it was: the result state
is the input `g` itself. -/
theorem arrive_kill_paths_state_unchanged (g : Gate) (rid : Nat) :
    (g.requests_allowed ≤ g.requests_completed →
      requestArrive g rid = (g, .killed)) ∧
    (g.requests_completed < g.requests_allowed → g.in_flight = true →
      g.requests_allowed ≤ g.requests_completed + (g.waiters.length : Int) + 1 →
      requestArrive g rid = (g, .killed)) :=
  ⟨requestArrive_over rid, fun h1 h2 h3 => requestArrive_proj rid h1 h2 h3⟩

/-- Witness for C10: both kill paths at concrete states — a gate whose
limit is exhausted (`2 ≥ 2`), and a gate with a request in flight and a
queued waiter where `projected = 0 + 1 + 1 ≥ 2`. In both cases the
returned state is the input state. -/
theorem arrive_kill_paths_state_unchanged_witness :
    requestArrive
        { requests_allowed := 2, requests_completed := 2,
          in_flight := false, waiters := [] } 5 =
      ({ requests_allowed := 2, requests_completed := 2,
         in_flight := false, waiters := [] }, .killed) ∧
    requestArrive
        { requests_allowed := 2, requests_completed := 0,
          in_flight := true, waiters := [3] } 6 =
      ({ requests_allowed := 2, requests_completed := 0,
         in_flight := true, waiters := [3] }, .killed) :=
  ⟨(arrive_kill_paths_state_unchanged _ 5).1 (by decide),
   (arrive_kill_paths_state_unchanged _ 6).2 (by decide) rfl (by decide)⟩

/-! ### Claim theorems: construction and `response` validation -/

/-- C8 counterexample: constructing the gate with the negative limit `-1`
is not rejected — `__init__` is a plain assignment of
`int(os.environ.get("LIMIT_REQUESTS", 2))` with no validation, so it
produces a gate whose `requests_allowed` is `-1 < 0` instead of
failing. -/
theorem mkGate_accepts_negative_limit :
    (mkGate (-1)).requests_allowed = -1 ∧ (mkGate (-1)).requests_allowed < 0 := by
  decide

/-- C8 amended: construction with a negative limit `L` succeeds and
yields the gate `⟨L, 0, False, []⟩`; every arrival to that gate is then
killed immediately, because `requests_completed = 0 ≥ L`. -/
theorem mkGate_negative_limit_kills_every_arrival (L : Int) (hL : L < 0) :
    (mkGate L).requests_allowed = L ∧
      ∀ rid, requestArrive (mkGate L) rid = (mkGate L, .killed) :=
  ⟨rfl, fun rid => requestArrive_over rid (le_of_lt hL)⟩

/-- Witness for the amended C8 at `L = -1`, `rid = 0`. -/
theorem mkGate_negative_limit_kills_every_arrival_witness :
    (mkGate (-1)).requests_allowed = -1 ∧
      requestArrive (mkGate (-1)) 0 = (mkGate (-1), .killed) :=
  ⟨(mkGate_negative_limit_kills_every_arrival (-1) (by decide)).1,
   (mkGate_negative_limit_kills_every_arrival (-1) (by decide)).2 0⟩

/-- C9 counterexample: calling `response` on a freshly constructed gate —
i.e. for a request that was never admitted — silently increments
`requests_completed` to 1, and calling it twice silently reaches 2. The
body of `response` contains no assertion, no id tracking and no failure
path. -/
theorem response_never_admitted_increments :
    (responseGate (mkGate 2)).1.requests_completed = 1 ∧
      (responseGate (responseGate (mkGate 2)).1).1.requests_completed = 2 := by
  decide

/-- C9 amended: `response` performs no validation at all and cannot fail:
for every gate state it unconditionally increments `requests_completed`
and clears `in_flight`, even when no request was admitted or when called
repeatedly; misuse silently corrupts the counter. -/
theorem response_has_no_validation (g : Gate) :
    (responseGate g).1.requests_completed = g.requests_completed + 1 ∧
      (responseGate g).1.in_flight = false :=
  responseGate_fst g

/-! ### Claim theorems: the signal/resume race -/

/-- C2 (evaluation at the failing interleaving): after `raceTrace2`, a
legal asyncio schedule with `LIMIT_REQUESTS = 3`, requests 2 and 3 are
simultaneously admitted and uncompleted — `inFlightCount` is 2, although
the addon's docstring promises "only one in flight at a time". -/
theorem race_two_requests_in_flight :
    (run (initConfig 3) raceTrace2).map inFlightCount = some 2 := by
  decide

/-- C1 (evaluation at the failing interleaving): after `raceTrace5`, a
legal asyncio schedule with `LIMIT_REQUESTS = 3`, the admit line
`self.in_flight = True` has been reached five times — the gate admitted
5 > 3 requests, although the docstring promises that after the limit is
reached subsequent requests are killed. -/
theorem race_admits_five_with_limit_three :
    (run (initConfig 3) raceTrace5).map Config.admitCount = some 5 ∧
      (initConfig 3).gate.requests_allowed = 3 := by
  constructor
  · decide
  · decide

/-- C3 (evaluation at the failing interleaving): after `raceTrace6`, a
legal asyncio schedule with `LIMIT_REQUESTS = 3`, the counter
`requests_completed` stands at 4, violating `completed ≤ limit`. (The
other half of the claimed invariant, `len(waiters) ≤ limit`, does hold —
here `waiters` is empty.) -/
theorem race_completed_exceeds_limit :
    (run (initConfig 3) raceTrace6).map
        (fun c => (c.gate.requests_completed, c.gate.requests_allowed,
          c.gate.waiters.length)) = some (4, 3, 0) := by
  decide

/-! ### Lookup and `setPhase` lemmas -/

theorem phase_lookup_cons (rid k : Nat) (p : Phase) (m : List (Nat × Phase)) :
    ((k, p) :: m).lookup rid = if rid = k then some p else m.lookup rid := by
  by_cases h : rid = k
  · simp [List.lookup, h]
  · have hb : (rid == k) = false := beq_eq_false_iff_ne.mpr h
    simp [List.lookup, hb, h]

theorem setPhase_cons (e : Nat × Phase) (es : List (Nat × Phase)) (k : Nat)
    (p : Phase) :
    setPhase (e :: es) k p = (if e.1 = k then (k, p) else e) :: setPhase es k p :=
  rfl

theorem phase_lookup_setPhase (m : List (Nat × Phase)) (rid k : Nat) (p : Phase)
    (h : rid ≠ k) : (setPhase m k p).lookup rid = m.lookup rid := by
  induction m with
  | nil => rfl
  | cons e es ih =>
    obtain ⟨q, p'⟩ := e
    by_cases hk : q = k
    · subst hk
      have h1 : setPhase ((q, p') :: es) q p = (q, p) :: setPhase es q p := by
        simp [setPhase_cons]
      rw [h1, phase_lookup_cons, phase_lookup_cons, if_neg h, if_neg h, ih]
    · have h1 : setPhase ((q, p') :: es) k p = (q, p') :: setPhase es k p := by
        simp [setPhase_cons, hk]
      rw [h1, phase_lookup_cons, phase_lookup_cons, ih]

/-! ### Inversion lemmas for the handler fragments -/

theorem requestArrive_inv {g g' : Gate} {rid : Nat} {r : ArriveResult}
    (h : requestArrive g rid = (g', r)) :
    (r = .killed ∧ g' = g) ∨
      (r = .admitted ∧ g' = { g with in_flight := true }) ∨
      (r = .suspended ∧ g' = { g with waiters := g.waiters ++ [rid] }) := by
  unfold requestArrive at h
  split at h
  · injection h with h1 h2; exact Or.inl ⟨h2.symm, h1.symm⟩
  · split at h
    · split at h
      · injection h with h1 h2; exact Or.inl ⟨h2.symm, h1.symm⟩
      · injection h with h1 h2; exact Or.inr (Or.inr ⟨h2.symm, h1.symm⟩)
    · injection h with h1 h2; exact Or.inr (Or.inl ⟨h2.symm, h1.symm⟩)

theorem requestResume_inv {g g' : Gate} {r : ResumeResult}
    (h : requestResume g = (g', r)) :
    (r = .killed ∧ g' = g) ∨ (r = .admitted ∧ g' = { g with in_flight := true }) := by
  unfold requestResume at h
  split at h
  · injection h with h1 h2; exact Or.inl ⟨h2.symm, h1.symm⟩
  · injection h with h1 h2; exact Or.inr ⟨h2.symm, h1.symm⟩

theorem responseGate_none_inv {g g' : Gate}
    (h : responseGate g = (g', none)) : g'.waiters = g.waiters := by
  have hw := responseGate_waiters g
  have hs := responseGate_snd g
  rw [h] at hw hs
  by_cases hc : g.waiters ≠ [] ∧ g.requests_completed + 1 < g.requests_allowed
  · rw [if_pos hc] at hs
    exact absurd hs.symm (by simp [List.head?_eq_none_iff, hc.1])
  · rw [if_neg hc] at hw
    exact hw

theorem responseGate_some_inv {g g' : Gate} {w : Nat}
    (h : responseGate g = (g', some w)) : g.waiters = w :: g'.waiters := by
  have hw := responseGate_waiters g
  have hs := responseGate_snd g
  rw [h] at hw hs
  by_cases hc : g.waiters ≠ [] ∧ g.requests_completed + 1 < g.requests_allowed
  · rw [if_pos hc] at hs hw
    cases hwl : g.waiters with
    | nil => exact absurd hwl hc.1
    | cons a rest =>
      rw [hwl] at hs hw
      simp only [List.head?] at hs
      simp only [List.tail] at hw
      cases hs
      rw [hw]
  · rw [if_neg hc] at hs
    exact absurd hs.symm (by simp)

theorem responseGate_over {g : Gate}
    (h : g.requests_allowed ≤ g.requests_completed) :
    responseGate g =
      ({ g with requests_completed := g.requests_completed + 1,
                in_flight := false }, none) := by
  have hnc : ¬ (g.requests_completed + 1 < g.requests_allowed) := by omega
  unfold responseGate
  cases g.waiters with
  | nil => rfl
  | cons w rest => simp [hnc]

/-! ### FIFO order of signals (C7) -/

theorem step_fifo {c c' : Config} {e : Ev} (hs : step c e = some c')
    (hinv : c.sigLog ++ c.gate.waiters = c.enqLog) :
    c'.sigLog ++ c'.gate.waiters = c'.enqLog := by
  cases e with
  | arrive rid =>
    simp only [step] at hs
    split at hs
    · exact absurd hs (by simp)
    · split at hs
      next g heq =>
        injection hs with hs; subst hs
        rcases requestArrive_inv heq with ⟨-, rfl⟩ | ⟨h2, -⟩ | ⟨h2, -⟩
        · exact hinv
        · simp at h2
        · simp at h2
      next g heq =>
        injection hs with hs; subst hs
        rcases requestArrive_inv heq with ⟨h2, -⟩ | ⟨-, rfl⟩ | ⟨h2, -⟩
        · simp at h2
        · exact hinv
        · simp at h2
      next g heq =>
        injection hs with hs; subst hs
        rcases requestArrive_inv heq with ⟨h2, -⟩ | ⟨h2, -⟩ | ⟨-, rfl⟩
        · simp at h2
        · simp at h2
        · show c.sigLog ++ (c.gate.waiters ++ [rid]) = c.enqLog ++ [rid]
          rw [← List.append_assoc, hinv]
  | resume rid =>
    simp only [step] at hs
    split at hs
    · split at hs
      next g heq =>
        injection hs with hs; subst hs
        rcases requestResume_inv heq with ⟨-, rfl⟩ | ⟨h2, -⟩
        · exact hinv
        · simp at h2
      next g heq =>
        injection hs with hs; subst hs
        rcases requestResume_inv heq with ⟨h2, -⟩ | ⟨-, rfl⟩
        · simp at h2
        · exact hinv
    · exact absurd hs (by simp)
  | complete rid =>
    simp only [step] at hs
    split at hs
    · split at hs
      next g heq =>
        injection hs with hs; subst hs
        have hw := responseGate_none_inv heq
        show c.sigLog ++ g.waiters = c.enqLog
        rw [hw]; exact hinv
      next g w heq =>
        injection hs with hs; subst hs
        have hw := responseGate_some_inv heq
        show (c.sigLog ++ [w]) ++ g.waiters = c.enqLog
        rw [List.append_assoc, List.singleton_append, ← hw]
        exact hinv
    · exact absurd hs (by simp)

theorem run_fifo {c c' : Config} {evs : List Ev} (hr : run c evs = some c')
    (hinv : c.sigLog ++ c.gate.waiters = c.enqLog) :
    c'.sigLog ++ c'.gate.waiters = c'.enqLog := by
  induction evs generalizing c with
  | nil =>
    simp only [run] at hr
    injection hr with hr; subst hr
    exact hinv
  | cons e es ih =>
    simp only [run] at hr
    rcases hstep : step c e with _ | c1
    · rw [hstep] at hr; simp at hr
    · rw [hstep] at hr
      exact ih hr (step_fifo hstep hinv)

/-- C7: waiters are signaled in strict FIFO order. After any valid event
sequence from a fresh gate, the log of signaled handles followed by the
handles still queued equals the log of enqueued handles, in order —
i.e. the signaled handles are exactly the oldest-enqueued ones, signaled
in exactly the order in which they were appended to `waiters` (`sigLog`
is a prefix of `enqLog`): no reordering, no priority. -/
theorem signal_order_is_enqueue_order (L : Int) (evs : List Ev) (c : Config)
    (hr : run (initConfig L) evs = some c) :
    c.sigLog ++ c.gate.waiters = c.enqLog :=
  run_fifo hr rfl

/-- Witness for C7 at `fifoTrace`: request 2 was enqueued and then
signaled first; `sigLog = [2]`, `waiters = []`, `enqLog = [2]`. -/
theorem signal_order_is_enqueue_order_witness :
    fifoConfig.sigLog ++ fifoConfig.gate.waiters = fifoConfig.enqLog :=
  signal_order_is_enqueue_order 3 fifoTrace fifoConfig (by decide)

/-! ### Permanent stall once the limit is reached (C6) -/

theorem step_frozen {c c' : Config} {e : Ev}
    (hc : c.gate.requests_allowed ≤ c.gate.requests_completed)
    (hs : step c e = some c') :
    c'.gate.requests_allowed ≤ c'.gate.requests_completed ∧
      c'.sigLog = c.sigLog ∧ c'.gate.waiters = c.gate.waiters ∧
      ∀ rid, c.phase.lookup rid = some .waitingQ →
        c'.phase.lookup rid = some .waitingQ := by
  cases e with
  | arrive rid =>
    simp only [step] at hs
    split at hs
    · exact absurd hs (by simp)
    next hnot =>
      simp only [requestArrive_over rid hc] at hs
      injection hs with hs; subst hs
      refine ⟨hc, rfl, rfl, ?_⟩
      intro r hr
      rw [phase_lookup_cons]
      by_cases hrr : r = rid
      · subst hrr
        exact absurd (by rw [hr]; rfl) hnot
      · rw [if_neg hrr]; exact hr
  | resume rid =>
    simp only [step] at hs
    split at hs
    next hsig =>
      simp only [requestResume_over hc] at hs
      injection hs with hs; subst hs
      refine ⟨hc, rfl, rfl, ?_⟩
      intro r hr
      have hrr : r ≠ rid := by
        intro heq; subst heq; rw [hr] at hsig; simp at hsig
      rw [phase_lookup_setPhase _ _ _ _ hrr]
      exact hr
    · exact absurd hs (by simp)
  | complete rid =>
    simp only [step] at hs
    split at hs
    next hadm =>
      simp only [responseGate_over hc] at hs
      injection hs with hs; subst hs
      refine ⟨?_, rfl, rfl, ?_⟩
      · show c.gate.requests_allowed ≤ c.gate.requests_completed + 1
        omega
      · intro r hr
        have hrr : r ≠ rid := by
          intro heq; subst heq; rw [hr] at hadm; simp at hadm
        rw [phase_lookup_setPhase _ _ _ _ hrr]
        exact hr
    · exact absurd hs (by simp)

theorem run_frozen {c c' : Config} {evs : List Ev}
    (hc : c.gate.requests_allowed ≤ c.gate.requests_completed)
    (hr : run c evs = some c') :
    c'.gate.requests_allowed ≤ c'.gate.requests_completed ∧
      c'.sigLog = c.sigLog ∧ c'.gate.waiters = c.gate.waiters ∧
      ∀ rid, c.phase.lookup rid = some .waitingQ →
        c'.phase.lookup rid = some .waitingQ := by
  induction evs generalizing c with
  | nil =>
    simp only [run] at hr
    injection hr with hr; subst hr
    exact ⟨hc, rfl, rfl, fun _ h => h⟩
  | cons e es ih =>
    simp only [run] at hr
    rcases hstep : step c e with _ | c1
    · rw [hstep] at hr; simp at hr
    · rw [hstep] at hr
      obtain ⟨h1, h2, h3, h4⟩ := step_frozen hc hstep
      obtain ⟨g1, g2, g3, g4⟩ := ih h1 hr
      exact ⟨g1, g2.trans h2, g3.trans h3, fun r hw => g4 r (h4 r hw)⟩

/-- C6: (a) every call to `response` increments `requests_completed` by
exactly one, sets `in_flight` to `False`, and pops and signals the head
of `waiters` if and only if `waiters` is non-empty and the incremented
`requests_completed` is still below `requests_allowed`; (b) consequently,
from any configuration in which `requests_completed ≥ requests_allowed`,
no event sequence ever signals another waiter (`sigLog` never grows), the
queue `waiters` never changes, and every request whose handle is queued
(`waitingQ`) stays queued forever — it is neither admitted nor killed. -/
theorem response_step_and_limit_freeze :
    (∀ g : Gate,
      (responseGate g).1.requests_completed = g.requests_completed + 1 ∧
      (responseGate g).1.in_flight = false ∧
      (responseGate g).2 =
        (if g.waiters ≠ [] ∧ g.requests_completed + 1 < g.requests_allowed then
          g.waiters.head? else none) ∧
      (responseGate g).1.waiters =
        (if g.waiters ≠ [] ∧ g.requests_completed + 1 < g.requests_allowed then
          g.waiters.tail else g.waiters)) ∧
    (∀ (c c' : Config) (evs : List Ev),
      c.gate.requests_allowed ≤ c.gate.requests_completed →
      run c evs = some c' →
      c'.sigLog = c.sigLog ∧ c'.gate.waiters = c.gate.waiters ∧
      ∀ rid, c.phase.lookup rid = some .waitingQ →
        c'.phase.lookup rid = some .waitingQ) :=
  ⟨fun g => ⟨(responseGate_fst g).1, (responseGate_fst g).2,
      responseGate_snd g, responseGate_waiters g⟩,
   fun _ _ _ hc hr => ⟨(run_frozen hc hr).2.1, (run_frozen hc hr).2.2.1,
      (run_frozen hc hr).2.2.2⟩⟩

/-- Witness for C6: from `initConfig 0` (limit already reached, since
`requests_completed = 0 ≥ 0`) the arrival of request 1 is killed and no
waiter is signaled: `sigLog` and `waiters` are unchanged. -/
theorem response_step_and_limit_freeze_witness :
    frozenConfig.sigLog = (initConfig 0).sigLog ∧
      frozenConfig.gate.waiters = (initConfig 0).gate.waiters :=
  ⟨(response_step_and_limit_freeze.2 (initConfig 0) frozenConfig [.arrive 1]
      (by decide) (by decide)).1,
   (response_step_and_limit_freeze.2 (initConfig 0) frozenConfig [.arrive 1]
      (by decide) (by decide)).2.1⟩
